import Mathlib

/-!
Verification development for the timer scheduling engine and its
WebSocket event-distribution layer
(`src/server/timerScheduler.ts`, `src/server/timerWsServer.ts`, and the
caller-side request correlator in the chat route).

The TypeScript source is shallowly embedded: JavaScript runtime values
are modelled by `JsValue` (with `JsNumber` covering the non-finite
doubles), the scheduler is modelled as explicit state passing over
`SchedulerState` (its timer map, the events it has emitted on the bus,
and the calls it has issued to the host timing primitives), and each
`setTimeout` / `setInterval` callback of the source becomes a firing-hook
function on that state.  Wall-clock reads (`Date.now()`) and the task's
side-effect outcome are passed in as parameters, since they are host
effects.  Timestamps and JS numerics are rationals, which faithfully
represent every finite double this code manipulates.
-/

namespace TimerStudy

/-- A JavaScript number: NaN, the two infinities, or a finite value
(finite doubles are embedded into `ℚ` exactly). -/
inductive JsNumber : Type
  | nan
  | inf
  | ninf
  | fin (q : ℚ)
deriving DecidableEq

/-- A JavaScript runtime value, as far as this code can observe one:
`undefined`, `null`, booleans, numbers, strings, arrays and plain
objects (an association list of string keys). -/
inductive JsValue : Type
  | undefined
  | null
  | bool (b : Bool)
  | num (n : JsNumber)
  | str (s : String)
  | arr (elems : List JsValue)
  | obj (fields : List (String × JsValue))

/-- JavaScript truthiness: `undefined`, `null`, `false`, `0`, `NaN` and
the empty string are falsy; every other value is truthy. -/
def truthy : JsValue → Bool
  | .undefined => false
  | .null => false
  | .bool b => b
  | .num .nan => false
  | .num (.fin q) => decide (q ≠ 0)
  | .num _ => true
  | .str s => decide (s ≠ "")
  | .arr _ => true
  | .obj _ => true

/-- `typeof v` is the string `object` exactly for `null`, arrays and
plain objects. -/
def isObjectType : JsValue → Bool
  | .null => true
  | .arr _ => true
  | .obj _ => true
  | _ => false

/-- Property access `v[key]` for the receivers this code reads from:
a missing key — and any non-object receiver other than `undefined` and
`null`, on which property access yields `undefined` in JS — gives
`undefined`.  Call sites whose receiver may be `undefined`/`null`
(where JS would throw a TypeError) test for that case explicitly before
using `jsGet`. -/
def jsGet (v : JsValue) (key : String) : JsValue :=
  match v with
  | .obj fields => (fields.lookup key).getD .undefined
  | _ => .undefined

/-- The nullish-coalescing operator `a ?? b`. -/
def nullish (a b : JsValue) : JsValue :=
  match a with
  | .undefined => b
  | .null => b
  | _ => a

/-- `Number.isFinite(v)` as a partial extraction: `some q` exactly when
`v` is a finite number `q` (no coercion of non-numbers). -/
def isFiniteNum : JsValue → Option ℚ
  | .num (.fin q) => some q
  | _ => none

/-- `Math.floor` on a finite number. -/
def jsFloor (q : ℚ) : ℚ := (⌊q⌋ : ℚ)

/-- Decimal rendering of a finite number by the host's `String()`
coercion; non-integral values are rendered through `ℚ`'s representation,
which stands in for the host's shortest-round-trip decimal form. -/
def jsNumToString : JsNumber → String
  | .nan => "NaN"
  | .inf => "Infinity"
  | .ninf => "-Infinity"
  | .fin q => if q.den = 1 then toString q.num else toString q

mutual

/-- The host's `String(v)` coercion for the values this code can pass to
it (arrays render as their comma-joined elements, objects as
`[object Object]`). -/
def jsToString : JsValue → String
  | .undefined => "undefined"
  | .null => "null"
  | .bool true => "true"
  | .bool false => "false"
  | .num n => jsNumToString n
  | .str s => s
  | .arr elems => jsJoin elems
  | .obj _ => "[object Object]"

/-- `Array.prototype.join(',')` over the elements, as used by the host's
array-to-string coercion. -/
def jsJoin : List JsValue → String
  | [] => ""
  | [v] => jsJoinElem v
  | v :: rest => jsJoinElem v ++ "," ++ jsJoin rest

/-- One element of an array join: `null` and `undefined` render empty. -/
def jsJoinElem : JsValue → String
  | .undefined => ""
  | .null => ""
  | v => jsToString v

end

/-! ## The scheduler's data model (`timerScheduler.ts`) -/

/-- `TimerTask['type']`: variant `notify` or `log`. -/
inductive TaskType : Type
  | notify
  | log
deriving DecidableEq

/-- `TimerTask`: the side-effect descriptor carried by a timer. -/
structure TimerTask : Type where
  type : TaskType
  message : String
  data : JsValue := .undefined

/-- `TimerMode`: `once` or `interval`. -/
inductive TimerMode : Type
  | once
  | interval
deriving DecidableEq

/-- `TimerInfo`: the public snapshot of one timer. -/
structure TimerInfo : Type where
  id : String
  mode : TimerMode
  createdAt : ℚ
  nextRunAt : ℚ
  everyMs : Option ℚ := none
  lastRunAt : Option ℚ := none
  task : TimerTask

/-- `TimerEvent`: the events the scheduler emits on its in-process bus. -/
inductive TimerEvent : Type
  | created (timer : TimerInfo)
  | canceled (id : String) (ok : Bool)
  | fired (timer : TimerInfo) (firedAt : ℚ)
  | error (id : Option String) (message : String)
  | list (timers : List TimerInfo)

/-- `TimerCreateInput`: the argument of `createTimer`. -/
inductive TimerCreateInput : Type
  | once (runAt : ℚ) (task : TimerTask)
  | interval (everyMs : ℚ) (startAt : Option ℚ) (task : TimerTask)

/-- The outcome of running a task's side effect (`runTask`): it either
returns, or throws a value whose rendered message is `m`. -/
inductive TaskOutcome : Type
  | ok
  | throws (m : String)

/-- A call made by the scheduler into the host's timing primitives.
Handles are identified by the timer id they serve. -/
inductive HostCmd : Type
  | setTimeout (id : String) (delay : ℚ)
  | setInterval (id : String) (period : ℚ)
  | clearTimeout (id : String)
  | clearInterval (id : String)
deriving DecidableEq

/-- The scheduler's state: the `timers` map (insertion-ordered, as a JS
`Map` is), every event emitted on the bus so far, and every call issued
to the host timing primitives so far. -/
structure SchedulerState : Type where
  timers : List (String × TimerInfo)
  events : List TimerEvent
  hostCmds : List HostCmd

/-- The empty scheduler, as `createTimerScheduler` initializes it. -/
def SchedulerState.empty : SchedulerState := ⟨[], [], []⟩

/-- `Map.prototype.set`: replace the entry with this key in place, or
append a new entry. -/
def mapSet : List (String × TimerInfo) → String → TimerInfo → List (String × TimerInfo)
  | [], k, v => [(k, v)]
  | p :: rest, k, v => if p.1 = k then (k, v) :: rest else p :: mapSet rest k v

/-- `Map.prototype.delete`: drop the entry with this key. -/
def mapDelete : List (String × TimerInfo) → String → List (String × TimerInfo)
  | [], _ => []
  | p :: rest, k => if p.1 = k then rest else p :: mapDelete rest k

/-- `clampMin(value, min)` from `timerScheduler.ts`. -/
def clampMin (value min : ℚ) : ℚ := if value < min then min else value

/-! ## Scheduler operations and firing hooks

Each operation mirrors one function of `createTimerScheduler`.  The
generated id (`createId()`) and each `safeNow()` reading are parameters:
`createdAt` is the `safeNow()` taken at the top of the create function
and `now2` the second reading used to measure the initial delay.
`emit` is modelled by appending to `events` (listeners are invoked
synchronously on emission; the connection layer's listener is modelled
in `broadcastsOf` below). -/

/-- `createOnceTimer` — the creation path only; the `setTimeout`
callback it registers is `onceFireHook`. -/
def createOnceTimer (s : SchedulerState) (id : String) (createdAt now2 : ℚ)
    (runAt : ℚ) (task : TimerTask) : TimerInfo × SchedulerState :=
  let nextRunAt := clampMin runAt createdAt
  let info : TimerInfo :=
    { id := id, mode := .once, createdAt := createdAt, nextRunAt := nextRunAt, task := task }
  let delay := clampMin (nextRunAt - now2) 0
  (info,
    { timers := mapSet s.timers id info
      events := s.events ++ [.created info]
      hostCmds := s.hostCmds ++ [.setTimeout id delay] })

/-- The `setTimeout` callback registered by `createOnceTimer`, invoked
by the host at wall-clock time `firedAt` with the task's side effect
resolving to `outcome`.  A no-op when the id is no longer tracked; the
`finally` block removes the timer in either outcome. -/
def onceFireHook (s : SchedulerState) (id : String) (firedAt : ℚ)
    (outcome : TaskOutcome) : SchedulerState :=
  match s.timers.lookup id with
  | none => s
  | some info =>
    let info2 := { info with lastRunAt := some firedAt, nextRunAt := firedAt }
    let evs := match outcome with
      | .ok => [TimerEvent.fired info2 firedAt]
      | .throws m => [TimerEvent.error (some id) m]
    { timers := mapDelete (mapSet s.timers id info2) id
      events := s.events ++ evs
      hostCmds := s.hostCmds }

/-- `createIntervalTimer` — the creation path only; the first-fire
`setTimeout` callback it registers is `intervalFirstHook`. -/
def createIntervalTimer (s : SchedulerState) (id : String) (createdAt now2 : ℚ)
    (everyMs : ℚ) (startAt : Option ℚ) (task : TimerTask) : TimerInfo × SchedulerState :=
  let e := clampMin (jsFloor everyMs) 50
  let start := startAt.getD createdAt
  let info : TimerInfo :=
    { id := id, mode := .interval, createdAt := createdAt,
      nextRunAt := clampMin start createdAt, everyMs := some e, task := task }
  let firstDelay := clampMin (info.nextRunAt - now2) 0
  (info,
    { timers := mapSet s.timers id info
      events := s.events ++ [.created info]
      hostCmds := s.hostCmds ++ [.setTimeout id firstDelay] })

/-- The first-fire `setTimeout` callback of an interval timer: when the
id is still tracked it installs the fixed-period `setInterval(everyMs)`
handle (replacing the stored handle), then performs one firing —
recording `lastRunAt`/`nextRunAt` and running the task.  The captured
`everyMs` closure variable equals the stored `info.everyMs`, which is
never mutated after creation. -/
def intervalFirstHook (s : SchedulerState) (id : String) (firedAt : ℚ)
    (outcome : TaskOutcome) : SchedulerState :=
  match s.timers.lookup id with
  | none => s
  | some info =>
    let e := info.everyMs.getD 0
    let info2 := { info with lastRunAt := some firedAt, nextRunAt := firedAt + e }
    let evs := match outcome with
      | .ok => [TimerEvent.fired info2 firedAt]
      | .throws m => [TimerEvent.error (some id) m]
    { timers := mapSet (mapSet s.timers id info) id info2
      events := s.events ++ evs
      hostCmds := s.hostCmds ++ [.setInterval id e] }

/-- The `setInterval` callback of an interval timer: each tick records
`lastRunAt`/`nextRunAt := firedAt + everyMs` and runs the task; it makes
no call into the host timing primitives. -/
def intervalTickHook (s : SchedulerState) (id : String) (firedAt : ℚ)
    (outcome : TaskOutcome) : SchedulerState :=
  match s.timers.lookup id with
  | none => s
  | some info =>
    let e := info.everyMs.getD 0
    let info2 := { info with lastRunAt := some firedAt, nextRunAt := firedAt + e }
    let evs := match outcome with
      | .ok => [TimerEvent.fired info2 firedAt]
      | .throws m => [TimerEvent.error (some id) m]
    { timers := mapSet s.timers id info2
      events := s.events ++ evs
      hostCmds := s.hostCmds }

/-- `createTimer`: dispatch on the input's `mode`. -/
def createTimer (s : SchedulerState) (id : String) (createdAt now2 : ℚ) :
    TimerCreateInput → TimerInfo × SchedulerState
  | .once runAt task => createOnceTimer s id createdAt now2 runAt task
  | .interval everyMs startAt task => createIntervalTimer s id createdAt now2 everyMs startAt task

/-- `cancelTimer(id)`: returns whether a live timer with that id existed
and was removed; clears the stored handle with both `clearTimeout` and
`clearInterval`; always emits `timer.canceled` with the outcome. -/
def cancelTimer (s : SchedulerState) (id : String) : Bool × SchedulerState :=
  match s.timers.lookup id with
  | none =>
    (false, { s with events := s.events ++ [.canceled id false] })
  | some _ =>
    (true,
      { timers := mapDelete s.timers id
        events := s.events ++ [.canceled id true]
        hostCmds := s.hostCmds ++ [.clearTimeout id, .clearInterval id] })

/-- `listTimers()`: a snapshot of all live timers, in map order; emits
nothing on the bus. -/
def listTimers (s : SchedulerState) : List TimerInfo := s.timers.map (·.2)

/-! ## The connection layer (`timerWsServer.ts`) -/

/-- `WsClientToServer`: a recognized inbound request.  For
`timer.create` the payload is carried unvalidated (the source casts the
raw JSON to `TimerCreateInput` without checking its fields). -/
inductive WsClientToServer : Type
  | ping (id : Option String)
  | timerList
  | timerCancel (id : String)
  | timerCreate (timer : JsValue)

/-- `WsServerToClient`: an outbound protocol message. -/
inductive WsServerToClient : Type
  | hello (now : ℚ) (path : String) (port : ℤ)
  | pong (id : Option String)
  | error (message : String) (requestType : Option String)
  | timerCreated (timer : TimerInfo)
  | timerCanceled (id : String) (ok : Bool)
  | timerFired (timer : TimerInfo) (firedAt : ℚ)
  | timerList (timers : List TimerInfo)
  | timerError (id : Option String) (message : String)

/-- `mapTimerEvent`: translate a scheduler event into the outbound
message that is broadcast for it. -/
def mapTimerEvent : TimerEvent → WsServerToClient
  | .created timer => .timerCreated timer
  | .canceled id ok => .timerCanceled id ok
  | .fired timer firedAt => .timerFired timer firedAt
  | .list timers => .timerList timers
  | .error id message => .timerError id message

/-- The messages broadcast to every open connection while the scheduler
moved from state `before` to state `after`: the connection layer's
`scheduler.onEvent` listener maps each newly emitted event through
`mapTimerEvent` and broadcasts it. -/
def broadcastsOf (before after : SchedulerState) : List WsServerToClient :=
  (after.events.drop before.events.length).map mapTimerEvent

/-- `parseClientMessage`: parse one inbound frame into a recognized
request.  The argument is the result of `JSON.parse` on the frame
(`none` when the frame was empty after trimming or was not valid JSON,
in which case the source also returns `null`). -/
def parseClientMessage (raw : Option JsValue) : Option WsClientToServer :=
  match raw with
  | none => none
  | some parsed =>
    if !truthy parsed || !isObjectType parsed then none
    else
      match jsGet parsed "type" with
      | .str t =>
        if t = "ping" then
          some (.ping (match jsGet parsed "id" with | .str s => some s | _ => none))
        else if t = "timer.list" then
          some .timerList
        else if t = "timer.cancel" then
          match jsGet parsed "id" with
          | .str s => if s = "" then none else some (.timerCancel s)
          | _ => none
        else if t = "timer.create" then
          let timer := jsGet parsed "timer"
          if truthy timer && isObjectType timer then some (.timerCreate timer) else none
        else none
      | _ => none

/-- `normalizeTask`: coerce the wire task into a `TimerTask`.  Reading
`task.type` on `undefined` or `null` throws a TypeError in JS (modelled
as `Except.error` carrying the host's message); any `type` other than
the string `log` yields a `notify` task; the message is coerced with
`String(task.message ?? '')`. -/
def normalizeTask (task : JsValue) : Except String TimerTask :=
  match task with
  | .undefined => .error "Cannot read properties of undefined (reading 'type')"
  | .null => .error "Cannot read properties of null (reading 'type')"
  | _ =>
    let message := jsToString (nullish (jsGet task "message") (.str ""))
    let data := jsGet task "data"
    match jsGet task "type" with
    | .str "log" => .ok { type := .log, message := message, data := data }
    | _ => .ok { type := .notify, message := message, data := data }

/-- `normalizeTimerCreateInput` from `timerWsServer.ts`: minimal
normalization of the wire payload before it reaches the scheduler.
`now` is the `Date.now()` reading used when `runAt` is not finite. -/
def normalizeTimerCreateInput (now : ℚ) (input : JsValue) : Except String TimerCreateInput :=
  match jsGet input "mode" with
  | .str "once" =>
    (normalizeTask (jsGet input "task")).map (fun task =>
      let runAt := match isFiniteNum (jsGet input "runAt") with
        | some q => jsFloor q
        | none => now
      .once runAt task)
  | _ =>
    (normalizeTask (jsGet input "task")).map (fun task =>
      let everyMs := match isFiniteNum (jsGet input "everyMs") with
        | some q => max 50 (jsFloor q)
        | none => 1000
      let startAt := (isFiniteNum (jsGet input "startAt")).map jsFloor
      .interval everyMs startAt task)

/-- The result of handling one recognized request on a connection: the
messages sent back to that connection only, and the scheduler state
after the call (whose newly emitted events are broadcast to all
connections — see `broadcastsOf`). -/
structure HandleResult : Type where
  unicast : List WsServerToClient
  sched : SchedulerState

/-- The `type` string of a request, used in the `error` reply's
`requestType` field. -/
def requestTypeName : WsClientToServer → String
  | .ping _ => "ping"
  | .timerList => "timer.list"
  | .timerCancel _ => "timer.cancel"
  | .timerCreate _ => "timer.create"

/-- `handleRequest`: `ping` is answered with a unicast `pong`,
`timer.list` with a unicast snapshot; `timer.cancel` and `timer.create`
call into the scheduler and send nothing directly.  `newId` is the id
`createId()` would generate, `now` the `Date.now()` readings taken while
handling, `now2` the delay-measurement reading.  An exception escaping
(only `normalizeTask`'s TypeError can) is the `Except.error` case. -/
def handleRequest (s : SchedulerState) (newId : String) (now now2 : ℚ) :
    WsClientToServer → Except String HandleResult
  | .ping id => .ok ⟨[.pong id], s⟩
  | .timerList => .ok ⟨[.timerList (listTimers s)], s⟩
  | .timerCancel id => .ok ⟨[], (cancelTimer s id).2⟩
  | .timerCreate timer =>
    (normalizeTimerCreateInput now timer).map (fun normalized =>
      ⟨[], (createTimer s newId now now2 normalized).2⟩)

/-- The effect of the `ws.on('message')` handler on one inbound frame:
the unicast replies, the scheduler state afterwards, and whether the
handler closed the connection (the source never does). -/
structure MessageResult : Type where
  unicast : List WsServerToClient
  sched : SchedulerState
  closed : Bool

/-- The `ws.on('message')` handler: a frame that fails to parse gets a
unicast parse error; a recognized request is handled, with any exception
caught and answered by a unicast `error` carrying the request type. -/
def onMessage (s : SchedulerState) (newId : String) (now now2 : ℚ)
    (raw : Option JsValue) : MessageResult :=
  match parseClientMessage raw with
  | none => ⟨[.error "无法解析消息（需要 JSON）" none], s, false⟩
  | some request =>
    match handleRequest s newId now now2 request with
    | .ok r => ⟨r.unicast, r.sched, false⟩
    | .error m => ⟨[.error m (some (requestTypeName request))], s, false⟩

/-! ## The caller-side request correlator (`executeTimerAction.waitFor`) -/

/-- The rejection message of the bounded-wait timeout
(`定时器服务超时（${timeoutMs}ms）`). -/
def timeoutMessage (timeoutMs : ℕ) : String :=
  "定时器服务超时（" ++ toString timeoutMs ++ "ms）"

/-- The rejection message of a mid-wait connection error. -/
def connErrorMessage : String := "定时器服务连接错误"

/-- The rejection message of a mid-wait connection close. -/
def connClosedMessage : String := "定时器服务连接已关闭"

/-- The default `timeoutMs` of `getTimerWsConfig` when the environment
supplies none. -/
def defaultTimeoutMs : ℕ := 2000

/-- A connection-level occurrence observed while `waitFor` is pending:
an inbound frame (already `JSON.parse`d; `none` when parsing failed, in
which case the listener returns without resolving), a connection error,
or a connection close. -/
inductive ConnEvent : Type
  | message (parsed : Option JsValue)
  | errorEv
  | closeEv

/-- How the `waitFor` promise settles. -/
inductive WaitOutcome (T : Type) : Type
  | resolved (value : T)
  | rejected (msg : String)

/-- `waitFor(predicate)` as a run over the time-ordered occurrences
`(t, e)` (with `t` in ms after the wait started): the first matching
frame resolves; the first error/close rejects immediately with its
distinct message; the timeout timer rejects once `timeoutMs` has elapsed
— it wins against any occurrence not strictly earlier — and also when
the occurrence stream is exhausted. -/
def runWait {T : Type} (timeoutMs : ℕ) (pred : JsValue → Option T) :
    List (ℕ × ConnEvent) → WaitOutcome T
  | [] => .rejected (timeoutMessage timeoutMs)
  | (t, e) :: rest =>
    if timeoutMs ≤ t then .rejected (timeoutMessage timeoutMs)
    else
      match e with
      | .message none => runWait timeoutMs pred rest
      | .message (some v) =>
        match pred v with
        | some x => .resolved x
        | none => runWait timeoutMs pred rest
      | .errorEv => .rejected connErrorMessage
      | .closeEv => .rejected connClosedMessage

/-! ## Basic lemmas about the embedded primitives -/

theorem le_clampMin (value min : ℚ) : min ≤ clampMin value min := by
  unfold clampMin
  split
  · exact le_refl min
  · exact le_of_not_lt (by assumption)

theorem clampMin_of_lt {value min : ℚ} (h : value < min) : clampMin value min = min := by
  simp [clampMin, h]

theorem lookup_eq_none_iff (m : List (String × TimerInfo)) (k : String) :
    m.lookup k = none ↔ ∀ p ∈ m, p.1 ≠ k := by
  induction m with
  | nil => simp
  | cons p rest ih =>
    by_cases h : k = p.1
    · simp [List.lookup, h]
    · simp [List.lookup, beq_false_of_ne h, ih]
      intro _
      exact fun hpk => h hpk.symm

theorem lookup_mapSet_self (m : List (String × TimerInfo)) (k : String) (v : TimerInfo) :
    (mapSet m k v).lookup k = some v := by
  induction m with
  | nil => simp [mapSet, List.lookup]
  | cons p rest ih =>
    by_cases h : p.1 = k
    · simp [mapSet, h, List.lookup]
    · simp [mapSet, h, List.lookup, beq_false_of_ne (fun hk => h hk.symm), ih]

theorem lookup_mapSet_ne (m : List (String × TimerInfo)) (k k2 : String) (v : TimerInfo)
    (h : k ≠ k2) : (mapSet m k2 v).lookup k = m.lookup k := by
  induction m with
  | nil => simp [mapSet, List.lookup, beq_false_of_ne h]
  | cons p rest ih =>
    by_cases hp : p.1 = k2
    · simp [mapSet, hp, List.lookup, beq_false_of_ne h, hp ▸ beq_false_of_ne (hp ▸ h)]
    · by_cases hk : k = p.1
      · simp [mapSet, hp, List.lookup, hk]
      · simp [mapSet, hp, List.lookup, beq_false_of_ne hk, ih]

theorem keys_mapSet (m : List (String × TimerInfo)) (k : String) (v : TimerInfo) :
    (mapSet m k v).map Prod.fst = m.map Prod.fst
    ∨ (mapSet m k v).map Prod.fst = m.map Prod.fst ++ [k] := by
  induction m with
  | nil => right; simp [mapSet]
  | cons p rest ih =>
    by_cases h : p.1 = k
    · left; simp [mapSet, h]
    · rcases ih with ih | ih
      · left; simp [mapSet, h, ih]
      · right; simp [mapSet, h, ih]

theorem nodup_keys_mapSet {m : List (String × TimerInfo)} {k : String} {v : TimerInfo}
    (hnd : (m.map Prod.fst).Nodup) : ((mapSet m k v).map Prod.fst).Nodup := by
  induction m with
  | nil => simp [mapSet]
  | cons p rest ih =>
    rw [List.map_cons, List.nodup_cons] at hnd
    by_cases h : p.1 = k
    · rw [mapSet, if_pos h, List.map_cons, List.nodup_cons]
      exact ⟨h ▸ hnd.1, hnd.2⟩
    · rw [mapSet, if_neg h, List.map_cons, List.nodup_cons]
      refine ⟨?_, ih hnd.2⟩
      rcases keys_mapSet rest k v with hk | hk
      · rw [hk]; exact hnd.1
      · rw [hk]
        simp only [List.mem_append, List.mem_singleton]
        rintro (hmem | rfl)
        · exact hnd.1 hmem
        · exact h rfl

theorem lookup_mapDelete_self {m : List (String × TimerInfo)} {k : String}
    (hnd : (m.map Prod.fst).Nodup) : (mapDelete m k).lookup k = none := by
  induction m with
  | nil => simp [mapDelete]
  | cons p rest ih =>
    rw [List.map_cons, List.nodup_cons] at hnd
    by_cases h : p.1 = k
    · rw [mapDelete, if_pos h]
      rw [lookup_eq_none_iff]
      intro q hq hqk
      have hmem : q.1 ∈ rest.map Prod.fst := List.mem_map_of_mem Prod.fst hq
      rw [hqk, ← h] at hmem
      exact hnd.1 hmem
    · rw [mapDelete, if_neg h, List.lookup, beq_false_of_ne (fun hk => h hk.symm)]
      exact ih hnd.2

theorem lookup_mapDelete_ne (m : List (String × TimerInfo)) (k k2 : String)
    (h : k ≠ k2) : (mapDelete m k2).lookup k = m.lookup k := by
  induction m with
  | nil => simp [mapDelete]
  | cons p rest ih =>
    by_cases hp : p.1 = k2
    · rw [mapDelete, if_pos hp, List.lookup, beq_false_of_ne (hp ▸ h)]
    · by_cases hk : k = p.1
      · simp [mapDelete, if_neg hp, List.lookup, hk]
      · simp [mapDelete, if_neg hp, List.lookup, beq_false_of_ne hk, ih]

theorem mem_mapSet {p : String × TimerInfo} {m : List (String × TimerInfo)}
    {k : String} {v : TimerInfo} (h : p ∈ mapSet m k v) : p = (k, v) ∨ p ∈ m := by
  induction m with
  | nil => simpa [mapSet] using h
  | cons q rest ih =>
    by_cases hq : q.1 = k
    · rw [mapSet, if_pos hq] at h
      rcases List.mem_cons.mp h with h | h
      · exact Or.inl h
      · exact Or.inr (List.mem_cons_of_mem q h)
    · rw [mapSet, if_neg hq] at h
      rcases List.mem_cons.mp h with h | h
      · exact Or.inr (h ▸ List.mem_cons_self q rest)
      · rcases ih h with h | h
        · exact Or.inl h
        · exact Or.inr (List.mem_cons_of_mem q h)

theorem mem_mapDelete {p : String × TimerInfo} {m : List (String × TimerInfo)}
    {k : String} (h : p ∈ mapDelete m k) : p ∈ m := by
  induction m with
  | nil => simp [mapDelete] at h
  | cons q rest ih =>
    by_cases hq : q.1 = k
    · rw [mapDelete, if_pos hq] at h
      exact List.mem_cons_of_mem q h
    · rw [mapDelete, if_neg hq] at h
      rcases List.mem_cons.mp h with h | h
      · exact h ▸ List.mem_cons_self q rest
      · exact List.mem_cons_of_mem q (ih h)

/-! ## Sample concrete values used by counterexamples and witnesses -/

/-- A concrete `notify` task. -/
def sampleTask : TimerTask := { type := .notify, message := "tick" }

/-- A concrete live interval timer with `everyMs = 50`. -/
def sampleIntervalInfo : TimerInfo :=
  { id := "t1", mode := .interval, createdAt := 0, nextRunAt := 0,
    everyMs := some 50, lastRunAt := none, task := sampleTask }

/-- A scheduler currently tracking exactly `sampleIntervalInfo`. -/
def sampleIntervalState : SchedulerState :=
  { timers := [("t1", sampleIntervalInfo)], events := [], hostCmds := [] }

/-- A concrete live once timer. -/
def sampleOnceInfo : TimerInfo :=
  { id := "o1", mode := .once, createdAt := 0, nextRunAt := 40, task := sampleTask }

/-- A scheduler currently tracking exactly `sampleOnceInfo`. -/
def sampleOnceState : SchedulerState :=
  { timers := [("o1", sampleOnceInfo)], events := [], hostCmds := [] }

/-! ## Claim theorems -/

/-- C6: `cancelTimer(id)` returns true exactly when a live timer with
that id existed, removing it and clearing its pending host handle;
an unknown id returns false and leaves the timer map unchanged (the
operation is a total function, so no exception is raised); in both cases
a single `timer.canceled{id, ok}` event carrying the returned boolean is
emitted. -/
theorem C6_cancelTimer_iff_existed (s : SchedulerState) (id : String) :
    (cancelTimer s id).1 = (s.timers.lookup id).isSome
    ∧ (cancelTimer s id).2.events
        = s.events ++ [TimerEvent.canceled id ((s.timers.lookup id).isSome)]
    ∧ (cancelTimer s id).2.timers
        = (if (s.timers.lookup id).isSome then mapDelete s.timers id else s.timers)
    ∧ (cancelTimer s id).2.hostCmds
        = s.hostCmds
          ++ (if (s.timers.lookup id).isSome then
                [HostCmd.clearTimeout id, HostCmd.clearInterval id] else [])
    ∧ ((s.timers.map Prod.fst).Nodup → (cancelTimer s id).2.timers.lookup id = none) := by
  rcases h : s.timers.lookup id with _ | info
  · refine ⟨?_, ?_, ?_, ?_, ?_⟩ <;> simp [cancelTimer, h]
  · refine ⟨?_, ?_, ?_, ?_, fun hnd => ?_⟩
    · simp [cancelTimer, h]
    · simp [cancelTimer, h]
    · simp [cancelTimer, h]
    · simp [cancelTimer, h]
    · simp only [cancelTimer, h]
      exact lookup_mapDelete_self hnd

/-- C6 witness: canceling the one live timer of `sampleIntervalState`
returns true and removes it. -/
theorem C6_witness :
    (cancelTimer sampleIntervalState "t1").1 = true
    ∧ (cancelTimer sampleIntervalState "t1").2.timers.lookup "t1" = none := by
  have h := C6_cancelTimer_iff_existed sampleIntervalState "t1"
  exact ⟨by rw [h.1]; rfl, h.2.2.2.2 (by decide)⟩

/-- C2 counterexample: handling an explicit `timer.list` request sends
the `timer.list` reply in the unicast list of the requesting connection
and leaves the scheduler state — in particular its event bus — exactly
as it was, so nothing is broadcast for it.  This contradicts the claim
that the `timer.list` reply is emitted via the event bus and broadcast
to every open connection. -/
theorem C2_counterexample :
    handleRequest sampleIntervalState "n1" 0 0 WsClientToServer.timerList
      = Except.ok ⟨[WsServerToClient.timerList [sampleIntervalInfo]], sampleIntervalState⟩
    ∧ broadcastsOf sampleIntervalState sampleIntervalState = [] :=
  ⟨rfl, rfl⟩

/-- C2 (amended): `ping` is answered with a unicast `pong` to the
requesting connection only, and the `timer.list` reply to an explicit
list request is likewise unicast to the requester — it is sent directly,
not emitted via the event bus, and the scheduler state is unchanged by
both requests, so neither reply is broadcast.  Unicast delivery is
therefore not unique to `pong`. -/
theorem C2_ping_pong_and_list_unicast (s : SchedulerState) (nid : String)
    (now now2 : ℚ) (pid : Option String) :
    handleRequest s nid now now2 (.ping pid) = .ok ⟨[.pong pid], s⟩
    ∧ handleRequest s nid now now2 .timerList = .ok ⟨[.timerList (listTimers s)], s⟩
    ∧ broadcastsOf s s = [] := by
  refine ⟨rfl, rfl, ?_⟩
  simp [broadcastsOf]

/-- C3: the stored `everyMs` of every created interval timer is
`clampMin(Math.floor(input), 50)`, hence at least 50; in particular an
input of 10 is stored as 50, and the host `setInterval` period installed
by the first firing hook — the effective firing interval — is that same
stored value 50.  (Non-finite wire values never reach the scheduler:
both normalization layers replace them before calling it.) -/
theorem C3_interval_everyMs_floor_50 (s : SchedulerState) (id : String)
    (createdAt now2 everyMs : ℚ) (startAt : Option ℚ) (task : TimerTask) :
    ((createIntervalTimer s id createdAt now2 everyMs startAt task).1).everyMs
      = some (clampMin (jsFloor everyMs) 50)
    ∧ 50 ≤ clampMin (jsFloor everyMs) 50
    ∧ (everyMs = 10 →
        ((createIntervalTimer s id createdAt now2 everyMs startAt task).1).everyMs = some 50
        ∧ ∀ t o, (intervalFirstHook
              (createIntervalTimer s id createdAt now2 everyMs startAt task).2 id t o).hostCmds
            = (createIntervalTimer s id createdAt now2 everyMs startAt task).2.hostCmds
              ++ [HostCmd.setInterval id 50]) := by
  have h10 : clampMin (jsFloor 10) 50 = 50 := by
    norm_num [clampMin, jsFloor]
  refine ⟨rfl, le_clampMin _ _, fun h => ⟨?_, fun t o => ?_⟩⟩
  · subst h
    simp [createIntervalTimer, h10]
  · subst h
    simp only [intervalFirstHook, createIntervalTimer, h10, lookup_mapSet_self]
    simp

/-- C3 witness: creating an interval timer with `everyMs = 10` stores
50, and its first firing hook installs a host interval of period 50. -/
theorem C3_witness :
    ((createIntervalTimer SchedulerState.empty "t1" 0 0 10 none sampleTask).1).everyMs = some 50
    ∧ (intervalFirstHook
          (createIntervalTimer SchedulerState.empty "t1" 0 0 10 none sampleTask).2 "t1" 3 .ok).hostCmds
        = (createIntervalTimer SchedulerState.empty "t1" 0 0 10 none sampleTask).2.hostCmds
          ++ [HostCmd.setInterval "t1" 50] := by
  have h := (C3_interval_everyMs_floor_50 SchedulerState.empty "t1" 0 0 10 none sampleTask).2.2 rfl
  exact ⟨h.1, h.2 3 .ok⟩

/-- C7: at creation, `nextRunAt` is clamped forward to the creation
timestamp for both modes (`runAt` in the past, and an interval `startAt`
in the past, both yield `nextRunAt = createdAt`), so every created timer
satisfies `createdAt ≤ nextRunAt`; the delay handed to the host timing
primitive is itself clamped to be nonnegative, so a timer never fires
before it is created. -/
theorem C7_nextRunAt_clamped_forward (s : SchedulerState) (id : String)
    (createdAt now2 runAt everyMs : ℚ) (startAt : Option ℚ) (task : TimerTask) :
    createdAt ≤ ((createOnceTimer s id createdAt now2 runAt task).1).nextRunAt
    ∧ ((createOnceTimer s id createdAt now2 runAt task).1).createdAt = createdAt
    ∧ (runAt < createdAt →
        ((createOnceTimer s id createdAt now2 runAt task).1).nextRunAt = createdAt)
    ∧ createdAt ≤ ((createIntervalTimer s id createdAt now2 everyMs startAt task).1).nextRunAt
    ∧ ((createIntervalTimer s id createdAt now2 everyMs startAt task).1).createdAt = createdAt
    ∧ (∀ st, startAt = some st → st < createdAt →
        ((createIntervalTimer s id createdAt now2 everyMs startAt task).1).nextRunAt = createdAt)
    ∧ (createOnceTimer s id createdAt now2 runAt task).2.hostCmds
        = s.hostCmds ++ [HostCmd.setTimeout id
            (clampMin (((createOnceTimer s id createdAt now2 runAt task).1).nextRunAt - now2) 0)]
    ∧ 0 ≤ clampMin (((createOnceTimer s id createdAt now2 runAt task).1).nextRunAt - now2) 0
    ∧ (createIntervalTimer s id createdAt now2 everyMs startAt task).2.hostCmds
        = s.hostCmds ++ [HostCmd.setTimeout id
            (clampMin (((createIntervalTimer s id createdAt now2 everyMs startAt task).1).nextRunAt - now2) 0)]
    ∧ 0 ≤ clampMin (((createIntervalTimer s id createdAt now2 everyMs startAt task).1).nextRunAt - now2) 0 := by
  refine ⟨?_, rfl, fun h => ?_, ?_, rfl, fun st hst h => ?_, rfl, le_clampMin _ _, rfl, le_clampMin _ _⟩
  · exact le_clampMin _ _
  · simp [createOnceTimer, clampMin_of_lt h]
  · exact le_clampMin _ _
  · simp [createIntervalTimer, hst, clampMin_of_lt h]

/-- C7 witness: a once timer created at time 100 with `runAt = 40` in
the past gets `nextRunAt = 100`, and an interval timer created at 100
with `startAt = 40` likewise; both host delays are nonnegative. -/
theorem C7_witness :
    ((createOnceTimer SchedulerState.empty "a" 100 100 40 sampleTask).1).nextRunAt = 100
    ∧ ((createIntervalTimer SchedulerState.empty "b" 100 100 500 (some 40) sampleTask).1).nextRunAt = 100
    ∧ 0 ≤ clampMin (((createOnceTimer SchedulerState.empty "a" 100 100 40 sampleTask).1).nextRunAt - 100) 0 := by
  have h1 := C7_nextRunAt_clamped_forward SchedulerState.empty "a" 100 100 40 500 none sampleTask
  have h2 := C7_nextRunAt_clamped_forward SchedulerState.empty "b" 100 100 40 500 (some 40) sampleTask
  refine ⟨h1.2.2.1 (by norm_num), ?_, h1.2.2.2.2.2.2.2.1⟩
  exact h2.2.2.2.2.2.1 40 rfl (by norm_num)

/-- C1 counterexample: firing the `setInterval` tick hook of a live
interval timer issues no call at all into the host timing primitives —
in particular no `setTimeout`/`setInterval` for the delta `everyMs = 50`
— refuting the claim that the scheduler reschedules the host timing
primitive for `everyMs` before returning from the firing hook.  The only
host registration for an interval timer is the fixed-period
`setInterval(everyMs)` installed once by the first-fire hook, so
subsequent firings follow that fixed cadence. -/
theorem C1_counterexample :
    ¬ ∃ c ∈ (intervalTickHook sampleIntervalState "t1" 1000 TaskOutcome.ok).hostCmds,
        (c = HostCmd.setTimeout "t1" 50 ∨ c = HostCmd.setInterval "t1" 50) := by
  decide

/-- C1 (amended): after each firing of a tracked interval timer the
scheduler does recompute the stored `nextRunAt` as `firedAt + everyMs`,
but the firing hook performs no rescheduling of the host timing
primitive: the tick hook leaves the host-call log unchanged, the timer's
cadence being the fixed-period `setInterval(everyMs)` that the
first-fire hook installed once. -/
theorem C1_nextRunAt_recomputed_but_not_rescheduled (s : SchedulerState)
    (id : String) (firedAt : ℚ) (o : TaskOutcome) (info : TimerInfo)
    (h : s.timers.lookup id = some info) :
    (intervalTickHook s id firedAt o).timers.lookup id
      = some { info with lastRunAt := some firedAt, nextRunAt := firedAt + info.everyMs.getD 0 }
    ∧ (intervalTickHook s id firedAt o).hostCmds = s.hostCmds
    ∧ (∀ e, info.everyMs = some e →
        ((intervalTickHook s id firedAt o).timers.lookup id).map (·.nextRunAt)
          = some (firedAt + e))
    ∧ (intervalFirstHook s id firedAt o).hostCmds
        = s.hostCmds ++ [HostCmd.setInterval id (info.everyMs.getD 0)] := by
  refine ⟨?_, ?_, fun e he => ?_, ?_⟩
  · simp only [intervalTickHook, h]
    exact lookup_mapSet_self _ _ _
  · simp only [intervalTickHook, h]
  · simp only [intervalTickHook, h]
    rw [lookup_mapSet_self]
    simp [he]
  · simp only [intervalFirstHook, h]

/-- C1 witness: on the concrete live interval timer, a tick at time 1000
stores `nextRunAt = 1050` while leaving the host-call log unchanged. -/
theorem C1_witness :
    ((intervalTickHook sampleIntervalState "t1" 1000 TaskOutcome.ok).timers.lookup "t1").map
        (·.nextRunAt) = some 1050
    ∧ (intervalTickHook sampleIntervalState "t1" 1000 TaskOutcome.ok).hostCmds
        = sampleIntervalState.hostCmds := by
  have h := C1_nextRunAt_recomputed_but_not_rescheduled sampleIntervalState "t1" 1000
    TaskOutcome.ok sampleIntervalInfo rfl
  have h50 : sampleIntervalInfo.everyMs = some 50 := rfl
  have := h.2.2.1 50 h50
  refine ⟨?_, h.2.1⟩
  rw [this]
  norm_num

/-- C4: if the task's side effect throws while a firing hook of a
tracked timer runs, the exception is caught inside the hook — the hook
is a total state transformer, so nothing propagates to the scheduler —
and a single `timer.error{id, message}` event is emitted in place of
`timer.fired`; every other timer's entry is untouched by all three
hooks. -/
theorem C4_task_throw_contained (s : SchedulerState) (id : String)
    (firedAt : ℚ) (m : String) (info : TimerInfo)
    (h : s.timers.lookup id = some info) :
    (onceFireHook s id firedAt (.throws m)).events
      = s.events ++ [TimerEvent.error (some id) m]
    ∧ (intervalFirstHook s id firedAt (.throws m)).events
        = s.events ++ [TimerEvent.error (some id) m]
    ∧ (intervalTickHook s id firedAt (.throws m)).events
        = s.events ++ [TimerEvent.error (some id) m]
    ∧ (∀ k, k ≠ id →
        (onceFireHook s id firedAt (.throws m)).timers.lookup k = s.timers.lookup k)
    ∧ (∀ k, k ≠ id →
        (intervalFirstHook s id firedAt (.throws m)).timers.lookup k = s.timers.lookup k)
    ∧ (∀ k, k ≠ id →
        (intervalTickHook s id firedAt (.throws m)).timers.lookup k = s.timers.lookup k) := by
  refine ⟨?_, ?_, ?_, fun k hk => ?_, fun k hk => ?_, fun k hk => ?_⟩
  · simp [onceFireHook, h]
  · simp [intervalFirstHook, h]
  · simp [intervalTickHook, h]
  · simp only [onceFireHook, h]
    rw [lookup_mapDelete_ne _ _ _ hk, lookup_mapSet_ne _ _ _ _ hk]
  · simp only [intervalFirstHook, h]
    rw [lookup_mapSet_ne _ _ _ _ hk, lookup_mapSet_ne _ _ _ _ hk]
  · simp only [intervalTickHook, h]
    rw [lookup_mapSet_ne _ _ _ _ hk]

/-- C4 witness: a task throwing `boom` at the concrete live timer yields
exactly one `timer.error` event from each hook and leaves the entry of
an unrelated id unchanged. -/
theorem C4_witness :
    (onceFireHook sampleIntervalState "t1" 5 (.throws "boom")).events
      = sampleIntervalState.events ++ [TimerEvent.error (some "t1") "boom"]
    ∧ (intervalTickHook sampleIntervalState "t1" 5 (.throws "boom")).events
        = sampleIntervalState.events ++ [TimerEvent.error (some "t1") "boom"]
    ∧ (intervalTickHook sampleIntervalState "t1" 5 (.throws "boom")).timers.lookup "t2"
        = sampleIntervalState.timers.lookup "t2" := by
  have h := C4_task_throw_contained sampleIntervalState "t1" 5 "boom" sampleIntervalInfo rfl
  exact ⟨h.1, h.2.2.1, h.2.2.2.2.2 "t2" (by decide)⟩

/-- C5: when the once-firing hook of a tracked timer completes — with
the task succeeding or throwing alike — the timer has been removed from
the live map (the `finally` block), so it is absent from the
`listTimers()` snapshot of the resulting state. -/
theorem C5_once_timer_removed_after_firing (s : SchedulerState) (id : String)
    (firedAt : ℚ) (outcome : TaskOutcome)
    (hids : ∀ p ∈ s.timers, p.2.id = p.1)
    (hnd : (s.timers.map Prod.fst).Nodup) :
    (onceFireHook s id firedAt outcome).timers.lookup id = none
    ∧ ∀ info ∈ listTimers (onceFireHook s id firedAt outcome), info.id ≠ id := by
  rcases h : s.timers.lookup id with _ | info
  · have hres : (onceFireHook s id firedAt outcome).timers = s.timers := by
      simp [onceFireHook, h]
    constructor
    · rw [hres]; exact h
    · intro info hinfo
      rw [listTimers, hres] at hinfo
      rcases List.mem_map.mp hinfo with ⟨p, hp, hpid⟩
      rw [← hpid, hids p hp]
      exact (lookup_eq_none_iff _ _).mp h p hp
  · have hres : (onceFireHook s id firedAt outcome).timers
        = mapDelete (mapSet s.timers id
            { info with lastRunAt := some firedAt, nextRunAt := firedAt }) id := by
      simp [onceFireHook, h]
    have hdel : (mapDelete (mapSet s.timers id
        { info with lastRunAt := some firedAt, nextRunAt := firedAt }) id).lookup id = none :=
      lookup_mapDelete_self (nodup_keys_mapSet hnd)
    constructor
    · rw [hres]; exact hdel
    · intro info2 hinfo
      rw [listTimers, hres] at hinfo
      rcases List.mem_map.mp hinfo with ⟨p, hp, hpid⟩
      have hp1 : p.1 ≠ id := (lookup_eq_none_iff _ _).mp hdel p hp
      rcases mem_mapSet (mem_mapDelete hp) with hpv | hpm
      · exact absurd (congrArg Prod.fst hpv) hp1
      · rw [← hpid, hids p hpm]
        exact hp1

/-- C5 witness: the once timer of `sampleOnceState` is gone from the
live map and from the snapshot after its hook runs. -/
theorem C5_witness :
    (onceFireHook sampleOnceState "o1" 45 .ok).timers.lookup "o1" = none := by
  have h := C5_once_timer_removed_after_firing sampleOnceState "o1" 45 .ok
    (by intro p hp; rcases List.mem_singleton.mp hp with rfl; rfl) (by decide)
  exact h.1

/-- C8: an inbound frame that is not valid JSON or does not match a
recognized request shape (`parseClientMessage` yields nothing) is
answered with a single `error` message unicast to that connection; the
scheduler state is untouched — so nothing is broadcast and no scheduler
mutation occurs — and the handler does not close the connection. -/
theorem C8_malformed_message_unicast_error (s : SchedulerState) (nid : String)
    (now now2 : ℚ) (raw : Option JsValue)
    (h : parseClientMessage raw = none) :
    onMessage s nid now now2 raw
      = ⟨[WsServerToClient.error "无法解析消息（需要 JSON）" none], s, false⟩
    ∧ broadcastsOf s (onMessage s nid now now2 raw).sched = [] := by
  have hm : onMessage s nid now now2 raw
      = ⟨[WsServerToClient.error "无法解析消息（需要 JSON）" none], s, false⟩ := by
    simp [onMessage, h]
  refine ⟨hm, ?_⟩
  rw [hm]
  simp [broadcastsOf]

/-- C8 witness: a frame whose JSON is the bare string `hi` (not an
object) is rejected by the parser, gets the unicast parse error, and
leaves the scheduler untouched. -/
theorem C8_witness :
    onMessage sampleIntervalState "n1" 0 0 (some (JsValue.str "hi"))
      = ⟨[WsServerToClient.error "无法解析消息（需要 JSON）" none], sampleIntervalState, false⟩ :=
  (C8_malformed_message_unicast_error sampleIntervalState "n1" 0 0
    (some (JsValue.str "hi")) rfl).1

/-! ## Lemmas about the correlator wait -/

/-- An occurrence that does not settle the pending `waitFor`: a frame
that failed to parse, or a parsed frame the predicate rejects. -/
def nonTriggering {T : Type} (pred : JsValue → Option T) : ConnEvent → Prop
  | .message none => True
  | .message (some v) => pred v = none
  | .errorEv => False
  | .closeEv => False

theorem runWait_timeout_of_nonTriggering {T : Type} (timeoutMs : ℕ)
    (pred : JsValue → Option T) :
    ∀ evs : List (ℕ × ConnEvent),
      (∀ p ∈ evs, p.1 < timeoutMs → nonTriggering pred p.2) →
      runWait timeoutMs pred evs = .rejected (timeoutMessage timeoutMs) := by
  intro evs
  induction evs with
  | nil => intro _; rfl
  | cons pe rest ih =>
    intro h
    obtain ⟨t, e⟩ := pe
    by_cases ht : timeoutMs ≤ t
    · simp [runWait, ht]
    · have hlt : t < timeoutMs := Nat.lt_of_not_le ht
      have hnt := h (t, e) (List.mem_cons_self _ _) hlt
      have htail := fun p hp => h p (List.mem_cons_of_mem _ hp)
      cases e with
      | message parsed =>
        cases parsed with
        | none =>
          simp only [runWait, if_neg ht]
          exact ih htail
        | some v =>
          have hv : pred v = none := hnt
          simp only [runWait, if_neg ht, hv]
          exact ih htail
      | errorEv => exact hnt.elim
      | closeEv => exact hnt.elim

theorem timeoutMessage_data (n : ℕ) :
    (timeoutMessage n).data
      = "定时器服务超时（".data ++ ((toString n).data ++ "ms）".data) := by
  rw [timeoutMessage, String.data_append, String.data_append, List.append_assoc]

theorem timeoutMessage_fifth (n : ℕ) : (timeoutMessage n).data[5]? = some '超' := by
  rw [timeoutMessage_data]
  rw [List.getElem?_append_left (by decide : 5 < "定时器服务超时（".data.length)]
  decide

theorem connErrorMessage_ne_timeoutMessage (n : ℕ) :
    connErrorMessage ≠ timeoutMessage n := by
  intro heq
  have h5 : connErrorMessage.data[5]? = (timeoutMessage n).data[5]? := by rw [heq]
  rw [timeoutMessage_fifth] at h5
  have hc : connErrorMessage.data[5]? = some '连' := by decide
  rw [hc] at h5
  exact absurd (Option.some.inj h5) (by decide)

theorem connClosedMessage_ne_timeoutMessage (n : ℕ) :
    connClosedMessage ≠ timeoutMessage n := by
  intro heq
  have h5 : connClosedMessage.data[5]? = (timeoutMessage n).data[5]? := by rw [heq]
  rw [timeoutMessage_fifth] at h5
  have hc : connClosedMessage.data[5]? = some '连' := by decide
  rw [hc] at h5
  exact absurd (Option.some.inj h5) (by decide)

/-- C9: while the correlator's `waitFor` is pending, a connection error
and a connection close each settle the wait immediately — whatever
occurrences would have followed — with rejection messages distinct from
each other and from the timeout's; the timeout rejection arises exactly
when the bounded window passes with nothing matching: any occurrence not
strictly inside the window loses to the timeout timer, and a stream
whose in-window occurrences are all non-matching frames ends in the
timeout rejection. -/
theorem C9_correlator_rejections {T : Type} (timeoutMs t : ℕ)
    (pred : JsValue → Option T) (rest : List (ℕ × ConnEvent)) (h : t < timeoutMs) :
    runWait timeoutMs pred ((t, ConnEvent.errorEv) :: rest) = .rejected connErrorMessage
    ∧ runWait timeoutMs pred ((t, ConnEvent.closeEv) :: rest) = .rejected connClosedMessage
    ∧ connErrorMessage ≠ timeoutMessage timeoutMs
    ∧ connClosedMessage ≠ timeoutMessage timeoutMs
    ∧ connErrorMessage ≠ connClosedMessage
    ∧ ∀ evs : List (ℕ × ConnEvent),
        (∀ p ∈ evs, p.1 < timeoutMs → nonTriggering pred p.2) →
        runWait timeoutMs pred evs = .rejected (timeoutMessage timeoutMs) := by
  refine ⟨?_, ?_, connErrorMessage_ne_timeoutMessage _,
    connClosedMessage_ne_timeoutMessage _, by decide,
    runWait_timeout_of_nonTriggering _ _⟩
  · simp [runWait, Nat.not_le.mpr h]
  · simp [runWait, Nat.not_le.mpr h]

/-- C9 witness: with the default 2000ms window, an error at 5ms and a
close at 5ms reject with their distinct messages, and a single
non-matching frame at 5ms leaves the wait to the timeout rejection. -/
theorem C9_witness :
    runWait defaultTimeoutMs (fun _ => (none : Option Unit)) [(5, ConnEvent.errorEv)]
      = .rejected connErrorMessage
    ∧ runWait defaultTimeoutMs (fun _ => (none : Option Unit)) [(5, ConnEvent.closeEv)]
      = .rejected connClosedMessage
    ∧ connErrorMessage ≠ timeoutMessage defaultTimeoutMs
    ∧ runWait defaultTimeoutMs (fun _ => (none : Option Unit)) [(5, ConnEvent.message none)]
      = .rejected (timeoutMessage defaultTimeoutMs) := by
  have h := C9_correlator_rejections defaultTimeoutMs 5
    (fun _ => (none : Option Unit)) [] (by decide)
  refine ⟨h.1, h.2.1, h.2.2.1, h.2.2.2.2.2 [(5, ConnEvent.message none)] ?_⟩
  intro p hp _
  rcases List.mem_singleton.mp hp with rfl
  trivial

/-- C10: the connection layer's normalization of a `timer.create`
payload, assuming reading the task does not throw (the task field is
present): a finite `runAt` is floored and a non-finite one replaced by
the current time; a finite `everyMs` is floored and clamped to at least
50 and a non-finite one replaced by 1000; a finite `startAt` is floored
and a non-finite one dropped; the task message is the `String()`
coercion of `message ?? ''`, so a missing message becomes the empty
string; and a successfully normalized payload is exactly what
`handleRequest` passes to the scheduler's `createTimer` — whose numeric
fields are, by the above, always finite. -/
theorem C10_create_payload_normalized (now : ℚ) (input : JsValue) (tk : TimerTask)
    (htask : normalizeTask (jsGet input "task") = Except.ok tk) :
    (jsGet input "mode" = JsValue.str "once" →
      (∀ q : ℚ, jsGet input "runAt" = JsValue.num (JsNumber.fin q) →
          normalizeTimerCreateInput now input = .ok (.once (jsFloor q) tk))
      ∧ (isFiniteNum (jsGet input "runAt") = none →
          normalizeTimerCreateInput now input = .ok (.once now tk)))
    ∧ (jsGet input "mode" ≠ JsValue.str "once" →
      (∀ q : ℚ, jsGet input "everyMs" = JsValue.num (JsNumber.fin q) →
          normalizeTimerCreateInput now input
            = .ok (.interval (max 50 (jsFloor q))
                ((isFiniteNum (jsGet input "startAt")).map jsFloor) tk)
          ∧ 50 ≤ max 50 (jsFloor q))
      ∧ (isFiniteNum (jsGet input "everyMs") = none →
          normalizeTimerCreateInput now input
            = .ok (.interval 1000
                ((isFiniteNum (jsGet input "startAt")).map jsFloor) tk)))
    ∧ (∀ tv : JsValue, tv ≠ JsValue.undefined → tv ≠ JsValue.null →
        ∃ tk2 : TimerTask, normalizeTask tv = .ok tk2
          ∧ tk2.message = jsToString (nullish (jsGet tv "message") (.str ""))
          ∧ (jsGet tv "message" = .undefined → tk2.message = ""))
    ∧ (∀ s nid now2 ci, normalizeTimerCreateInput now input = .ok ci →
        handleRequest s nid now now2 (.timerCreate input)
          = .ok ⟨[], (createTimer s nid now now2 ci).2⟩) := by
  refine ⟨fun hmode => ⟨fun q hq => ?_, fun hfin => ?_⟩,
    fun hne => ⟨fun q hq => ⟨?_, le_max_left _ _⟩, fun hfin => ?_⟩,
    fun tv h1 h2 => ?_, fun s nid now2 ci hci => ?_⟩
  · simp [normalizeTimerCreateInput, hmode, htask, hq, isFiniteNum, Except.map]
  · simp [normalizeTimerCreateInput, hmode, htask, hfin, Except.map]
  · unfold normalizeTimerCreateInput
    split
    · exact absurd (by assumption) hne
    · simp [htask, hq, isFiniteNum, Except.map]
  · unfold normalizeTimerCreateInput
    split
    · exact absurd (by assumption) hne
    · simp [htask, hfin, Except.map]
  · unfold normalizeTask
    split
    · exact absurd rfl h1
    · exact absurd rfl h2
    · split
      · exact ⟨_, rfl, rfl, fun hmsg => by simp [hmsg, nullish, jsToString]⟩
      · exact ⟨_, rfl, rfl, fun hmsg => by simp [hmsg, nullish, jsToString]⟩
  · simp [handleRequest, hci, Except.map]

/-- The concrete wire payload used by the C10 witness: interval mode,
`everyMs = 10`, a NaN `startAt`, and a task without a message. -/
def c10input : JsValue :=
  .obj [("mode", .str "interval"), ("everyMs", .num (.fin 10)),
        ("startAt", .num .nan), ("task", .obj [("type", .str "notify")])]

/-- The task `c10input` normalizes to: `notify` with an empty message. -/
def c10task : TimerTask := { type := .notify, message := "" }

/-- C10 witness: the concrete payload normalizes to an interval input
with `everyMs = max 50 ⌊10⌋`, the NaN `startAt` dropped, and the missing
message coerced to the empty string. -/
theorem C10_witness :
    normalizeTimerCreateInput 0 c10input
      = .ok (.interval (max 50 (jsFloor 10))
          ((isFiniteNum (jsGet c10input "startAt")).map jsFloor) c10task)
    ∧ 50 ≤ max 50 (jsFloor 10) := by
  have htask : normalizeTask (jsGet c10input "task") = Except.ok c10task := by
    have h1 : jsGet c10input "task" = JsValue.obj [("type", JsValue.str "notify")] := rfl
    have h2 : jsGet (JsValue.obj [("type", JsValue.str "notify")]) "message" = .undefined := rfl
    have h3 : jsGet (JsValue.obj [("type", JsValue.str "notify")]) "type"
        = JsValue.str "notify" := rfl
    have h4 : jsGet (JsValue.obj [("type", JsValue.str "notify")]) "data" = .undefined := rfl
    rw [h1, normalizeTask]
    · rw [h2, h3, h4]
      simp [nullish, jsToString, c10task]
    · exact fun hc => JsValue.noConfusion hc
    · exact fun hc => JsValue.noConfusion hc
  have h := C10_create_payload_normalized 0 c10input c10task htask
  have hne : jsGet c10input "mode" ≠ JsValue.str "once" := by
    intro hc
    exact absurd (JsValue.str.inj hc) (by decide)
  exact (h.2.1 hne).1 10 rfl

end TimerStudy
